import Mathlib

/-!
Verification development for the `rust_operator` repository: a Kubernetes
controller reconciling a `RustOperator` custom resource into a ConfigMap,
a Deployment, a Service and an optional Ingress.

The Rust sources are shallowly embedded:
* `src/src/main.rs` helpers live in namespace `MainSrc`;
* `src/src/resources.rs` helpers live in namespace `ResourcesSrc`;
* the CRD types of `src/src/crd.rs` (identical to the inline copies in
  `main.rs`) and the needed `k8s_openapi` record types are shared at top
  level;
* the reconcile loop of `main.rs` (identical logic to
  `src/src/controller.rs`) is modelled as a pure function from the watched
  object and a table of store responses to the list of store operations it
  issues plus its outcome (success with a scheduling action, a typed error,
  or an abrupt abort).

External collaborators (the Kubernetes API server and the `kube` / `sha2` /
`serde_json` crates) are modelled at their documented interfaces: JSON merge
patch application per RFC 7386, `controller_owner_ref` per kube-rs, SHA-256
per FIPS 180-4 and `serde_json` string escaping per its writer.
-/

/-! ## Rust string helpers -/

/-- Unicode `White_Space` property, as used by the Rust function `char::is_whitespace`
(hence by `str::trim`). -/
def rustIsWhitespace (c : Char) : Bool :=
  let n := c.toNat
  n == 0x09 || n == 0x0a || n == 0x0b || n == 0x0c || n == 0x0d || n == 0x20 ||
  n == 0x85 || n == 0xa0 || n == 0x1680 || (0x2000 ≤ n && n ≤ 0x200a) ||
  n == 0x2028 || n == 0x2029 || n == 0x202f || n == 0x205f || n == 0x3000

/-- Rust `str::trim`: drop leading and trailing whitespace. -/
def rustTrim (s : String) : String :=
  ⟨((s.data.dropWhile rustIsWhitespace).reverse.dropWhile rustIsWhitespace).reverse⟩

/-! ## SHA-256 over byte lists (the `sha2` crate, FIPS 180-4), on `Nat`
with explicit reduction mod 2^32 -/

def w32 (n : Nat) : Nat := n % 4294967296

def rotr32 (x n : Nat) : Nat := (x % 2 ^ n) * 2 ^ (32 - n) + x / 2 ^ n

def not32 (x : Nat) : Nat := 4294967295 - w32 x

def bsig0 (x : Nat) : Nat := rotr32 x 2 ^^^ rotr32 x 13 ^^^ rotr32 x 22

def bsig1 (x : Nat) : Nat := rotr32 x 6 ^^^ rotr32 x 11 ^^^ rotr32 x 25

def ssig0 (x : Nat) : Nat := rotr32 x 7 ^^^ rotr32 x 18 ^^^ x / 2 ^ 3

def ssig1 (x : Nat) : Nat := rotr32 x 17 ^^^ rotr32 x 19 ^^^ x / 2 ^ 10

def chf (x y z : Nat) : Nat := (x &&& y) ^^^ (not32 x &&& z)

def majf (x y z : Nat) : Nat := (x &&& y) ^^^ (x &&& z) ^^^ (y &&& z)

def K256 : Array Nat := #[
  1116352408, 1899447441, 3049323471, 3921009573, 961987163,
  1508970993, 2453635748, 2870763221, 3624381080, 310598401,
  607225278, 1426881987, 1925078388, 2162078206, 2614888103,
  3248222580, 3835390401, 4022224774, 264347078, 604807628,
  770255983, 1249150122, 1555081692, 1996064986, 2554220882,
  2821834349, 2952996808, 3210313671, 3336571891, 3584528711,
  113926993, 338241895, 666307205, 773529912, 1294757372,
  1396182291, 1695183700, 1986661051, 2177026350, 2456956037,
  2730485921, 2820302411, 3259730800, 3345764771, 3516065817,
  3600352804, 4094571909, 275423344, 430227734, 506948616,
  659060556, 883997877, 958139571, 1322822218, 1537002063,
  1747873779, 1955562222, 2024104815, 2227730452, 2361852424,
  2428436474, 2756734187, 3204031479, 3329325298]

def H256 : List Nat :=
  [1779033703, 3144134277, 1013904242, 2773480762,
   1359893119, 2600822924, 528734635, 1541459225]

/-- Big-endian 8-byte encoding of a bit length. -/
def be64 (n : Nat) : List Nat :=
  [n / 2 ^ 56 % 256, n / 2 ^ 48 % 256, n / 2 ^ 40 % 256, n / 2 ^ 32 % 256,
   n / 2 ^ 24 % 256, n / 2 ^ 16 % 256, n / 2 ^ 8 % 256, n % 256]

def sha256pad (msg : List Nat) : List Nat :=
  let L := msg.length
  let k := (119 - L % 64) % 64
  msg ++ 0x80 :: (List.replicate k 0 ++ be64 (8 * L))

def chunksOf (n : Nat) (l : List Nat) : List (List Nat) :=
  if h : n = 0 ∨ l = [] then []
  else l.take n :: chunksOf n (l.drop n)
termination_by l.length
decreasing_by
  simp only [List.length_drop]
  have hn : 0 < n := Nat.pos_of_ne_zero (fun hh => h (Or.inl hh))
  have hl : l ≠ [] := fun hh => h (Or.inr hh)
  have hlen : 0 < l.length := List.length_pos.mpr hl
  omega

/-- Big-endian 32-bit word from four bytes. -/
def be32of (l : List Nat) : Nat :=
  match l with
  | [a, b, c, d] => a * 2 ^ 24 + b * 2 ^ 16 + c * 2 ^ 8 + d
  | _ => 0

/-- SHA-256 message schedule of one 64-byte block. -/
def msgWords (block : List Nat) : Array Nat := Id.run do
  let mut w : Array Nat := ((chunksOf 4 block).map be32of).toArray
  for t in [16:64] do
    w := w.push (w32 (ssig1 w[t - 2]! + w[t - 7]! + ssig0 w[t - 15]! + w[t - 16]!))
  return w

/-- SHA-256 compression of one block into the running hash state. -/
def sha256compress (hs : List Nat) (block : List Nat) : List Nat := Id.run do
  let w := msgWords block
  let mut a := hs[0]!
  let mut b := hs[1]!
  let mut c := hs[2]!
  let mut d := hs[3]!
  let mut e := hs[4]!
  let mut f := hs[5]!
  let mut g := hs[6]!
  let mut hh := hs[7]!
  for t in [0:64] do
    let t1 := w32 (hh + bsig1 e + chf e f g + K256[t]! + w[t]!)
    let t2 := w32 (bsig0 a + majf a b c)
    hh := g
    g := f
    f := e
    e := w32 (d + t1)
    d := c
    c := b
    b := a
    a := w32 (t1 + t2)
  return [w32 (hs[0]! + a), w32 (hs[1]! + b), w32 (hs[2]! + c), w32 (hs[3]! + d),
          w32 (hs[4]! + e), w32 (hs[5]! + f), w32 (hs[6]! + g), w32 (hs[7]! + hh)]

def sha256 (msg : List Nat) : List Nat :=
  (chunksOf 64 (sha256pad msg)).foldl sha256compress H256

def hexDig (n : Nat) : Char :=
  match n with
  | 0 => '0' | 1 => '1' | 2 => '2' | 3 => '3' | 4 => '4' | 5 => '5' | 6 => '6' | 7 => '7'
  | 8 => '8' | 9 => '9' | 10 => 'a' | 11 => 'b' | 12 => 'c' | 13 => 'd' | 14 => 'e' | _ => 'f'

def word2hex (n : Nat) : List Char :=
  [hexDig (n / 16 ^ 7 % 16), hexDig (n / 16 ^ 6 % 16), hexDig (n / 16 ^ 5 % 16),
   hexDig (n / 16 ^ 4 % 16), hexDig (n / 16 ^ 3 % 16), hexDig (n / 16 ^ 2 % 16),
   hexDig (n / 16 % 16), hexDig (n % 16)]

/-- Lowercase hex rendering of the SHA-256 digest, as Rust LowerHex formatting renders the `sha2` digest. -/
def sha256hex (msg : List Nat) : String :=
  ⟨((sha256 msg).map word2hex).flatten⟩

/-! ## UTF-8 encoding (Rust `String` bytes) -/

def utf8EncodeChar (c : Char) : List Nat :=
  let n := c.toNat
  if n < 128 then [n]
  else if n < 2048 then [192 + n / 64, 128 + n % 64]
  else if n < 65536 then [224 + n / 4096, 128 + n / 64 % 64, 128 + n % 64]
  else [240 + n / 262144, 128 + n / 4096 % 64, 128 + n / 64 % 64, 128 + n % 64]

def utf8Encode (s : List Char) : List Nat :=
  (s.map utf8EncodeChar).flatten

/-! ## `serde_json` string escaping and the canonical `RolloutInputs`
serialization -/

/-- Escape of one character in a JSON string, per the `serde_json` writer:
short escapes for quote, backslash and the usual control characters,
`\u00XX` for the remaining control characters, everything else verbatim. -/
def jsonEscapeChar (c : Char) : List Char :=
  if c = '\"' then ['\\', '\"']
  else if c = '\\' then ['\\', '\\']
  else if c = '\x08' then ['\\', 'b']
  else if c = '\x09' then ['\\', 't']
  else if c = '\x0a' then ['\\', 'n']
  else if c = '\x0c' then ['\\', 'f']
  else if c = '\x0d' then ['\\', 'r']
  else if c.toNat < 32 then ['\\', 'u', '0', '0', hexDig (c.toNat / 16), hexDig (c.toNat % 16)]
  else [c]

def jsonEscape : List Char → List Char
  | [] => []
  | c :: s => jsonEscapeChar c ++ jsonEscape s

/-- Decode table of the two-character short escapes, used to show the
escaping injective. -/
def shortUnesc (e : Char) : Option Char :=
  if e = '\"' then some '\"'
  else if e = '\\' then some '\\'
  else if e = 'b' then some '\x08'
  else if e = 't' then some '\x09'
  else if e = 'n' then some '\x0a'
  else if e = 'f' then some '\x0c'
  else if e = 'r' then some '\x0d'
  else none

/-- The exact byte string `serde_json::to_vec` produces for
`RolloutInputs .. html ..`, at the character level: the object with the
single field `html` holding the escaped string. -/
def serializeRolloutInputs (html : String) : List Char :=
  '\x7b' :: '\"' :: 'h' :: 't' :: 'm' :: 'l' :: '\"' :: ':' :: '\"' ::
    (jsonEscape html.data ++ ['\"', '\x7d'])

/-! ## `k8s_openapi` record types (only the fields the builders set; every
other field is left at `Default::default()` in the source, uniformly) -/

structure OwnerReference where
  api_version : String
  kind : String
  name : String
  uid : String
  controller : Option Bool
  block_owner_deletion : Option Bool
deriving DecidableEq, Repr

structure ObjectMeta where
  name : Option String
  labels : Option (List (String × String))
  annotations : Option (List (String × String))
  owner_references : Option (List OwnerReference)
deriving DecidableEq, Repr

structure ConfigMap where
  metadata : ObjectMeta
  data : Option (List (String × String))
deriving DecidableEq, Repr

inductive IntOrString where
  | int (i : Int)
  | str (s : String)
deriving DecidableEq, Repr

structure ConfigMapVolumeSource where
  name : String
deriving DecidableEq, Repr

structure Volume where
  name : String
  config_map : Option ConfigMapVolumeSource
deriving DecidableEq, Repr

structure VolumeMount where
  name : String
  mount_path : String
  read_only : Option Bool
deriving DecidableEq, Repr

structure ContainerPort where
  container_port : Int
deriving DecidableEq, Repr

structure Container where
  name : String
  image : Option String
  ports : Option (List ContainerPort)
  volume_mounts : Option (List VolumeMount)
deriving DecidableEq, Repr

structure PodSpec where
  containers : List Container
  volumes : Option (List Volume)
deriving DecidableEq, Repr

structure PodTemplateSpec where
  metadata : Option ObjectMeta
  spec : Option PodSpec
deriving DecidableEq, Repr

structure LabelSelector where
  match_labels : Option (List (String × String))
deriving DecidableEq, Repr

structure DeploymentSpec where
  replicas : Option Int
  selector : LabelSelector
  template : PodTemplateSpec
deriving DecidableEq, Repr

structure Deployment where
  metadata : ObjectMeta
  spec : Option DeploymentSpec
deriving DecidableEq, Repr

structure ServicePort where
  port : Int
  target_port : Option IntOrString
deriving DecidableEq, Repr

structure ServiceSpec where
  selector : Option (List (String × String))
  ports : Option (List ServicePort)
  type_ : Option String
deriving DecidableEq, Repr

structure Service where
  metadata : ObjectMeta
  spec : Option ServiceSpec
deriving DecidableEq, Repr

structure TypedLocalObjectReference where
  api_group : Option String
  kind : String
  name : String
deriving DecidableEq, Repr

structure ServiceBackendPort where
  number : Option Int
  name : Option String
deriving DecidableEq, Repr

structure IngressServiceBackend where
  name : String
  port : Option ServiceBackendPort
deriving DecidableEq, Repr

structure IngressBackend where
  service : Option IngressServiceBackend
  resource : Option TypedLocalObjectReference
deriving DecidableEq, Repr

structure HTTPIngressPath where
  backend : IngressBackend
  path : Option String
  path_type : String
deriving DecidableEq, Repr

structure HTTPIngressRuleValue where
  paths : List HTTPIngressPath
deriving DecidableEq, Repr

structure IngressRule where
  host : Option String
  http : Option HTTPIngressRuleValue
deriving DecidableEq, Repr

structure IngressTLS where
  hosts : Option (List String)
  secret_name : Option String
deriving DecidableEq, Repr

structure IngressSpec where
  ingress_class_name : Option String
  rules : Option (List IngressRule)
  tls : Option (List IngressTLS)
deriving DecidableEq, Repr

structure Ingress where
  metadata : ObjectMeta
  spec : Option IngressSpec
deriving DecidableEq, Repr

/-! ## CRD types from `src/src/crd.rs` (the inline copies in `main.rs` are
field-for-field identical) -/

structure RustOperatorSpec where
  message : String
  html : String
  replicas : Int
  service_type : String
  ingress_host : String
  tls_secret_name : String
deriving DecidableEq, Repr

structure HwCondition where
  type_ : String
  status : String
  reason : Option String
  message : Option String
deriving DecidableEq, Repr

structure RustOperatorStatus where
  observed_message : Option String
  ready_replicas : Option Int
  conditions : Option (List HwCondition)
deriving DecidableEq, Repr

/-- Rust `Default` for `RustOperatorStatus`: every field `None`. -/
instance : Inhabited RustOperatorStatus := ⟨⟨none, none, none⟩⟩

/-- Metadata of the watched resource itself: the fields the reconciler and
the finalizer patches touch. -/
structure ResourceMeta where
  name : Option String
  generate_name : Option String
  namespace_ : Option String
  uid : Option String
  finalizers : Option (List String)
  deletion_timestamp : Option String
deriving DecidableEq, Repr

structure RustOperator where
  metadata : ResourceMeta
  spec : RustOperatorSpec
  status : Option RustOperatorStatus
deriving DecidableEq, Repr

/-- kube-rs `ResourceExt::name_any`: the name, falling back to
`generateName`, falling back to the empty string. -/
def name_any (o : RustOperator) : String :=
  (o.metadata.name <|> o.metadata.generate_name).getD ""

/-- Source `obj.namespace().unwrap_or_else(default)` in the reconciler. -/
def nsOf (o : RustOperator) : String :=
  o.metadata.namespace_.getD "default"

/-- kube-rs `Resource::controller_owner_ref` for the `RustOperator` CRD:
requires `metadata.name` and `metadata.uid`, returns `None` otherwise. -/
def controller_owner_ref (o : RustOperator) : Option OwnerReference :=
  match o.metadata.name, o.metadata.uid with
  | some n, some u =>
    some { api_version := "rootster.xyz/v1", kind := "RustOperator", name := n, uid := u,
           controller := some true, block_owner_deletion := some true }
  | _, _ => none

/-- Effect on the metadata of the resource of a JSON merge patch whose body is
`metadata.finalizers = fins` (spec section 6b / glossary; RFC 7386): the
named field is replaced wholesale — arrays are not merged element-wise —
and every other field is untouched. -/
def applyFinalizersMergePatch (m : ResourceMeta) (fins : List String) : ResourceMeta :=
  { m with finalizers := some fins }

/-- Rust `Iterator::position`: index of the first element satisfying `p`. -/
def position {α : Type} (p : α → Bool) : List α → Option Nat
  | [] => none
  | a :: l => if p a then some 0 else (position p l).map (fun i => i + 1)

/-! ## Environment model of one reconcile invocation: the store calls the
reconciler makes, and the responses the store hands back -/

/-- Source `kube::Error`, kept abstract as a status code plus message. -/
structure KubeErr where
  code : Nat
  msg : String
deriving DecidableEq, Repr

/-- Source `kube::runtime::controller::Action`. -/
inductive RAction where
  | requeue (secs : Nat)
  | awaitChange
deriving DecidableEq, Repr

/-- Observed status of the Deployment returned by the apply call
(`deploy_obj` in the source). -/
structure DeployStatusObs where
  ready_replicas : Option Int
deriving DecidableEq, Repr

structure DeployReadback where
  status : Option DeployStatusObs
deriving DecidableEq, Repr

/-- One store operation issued by the reconciler, in issue order. -/
inductive Op where
  | patchMergeFinalizers (ns name : String) (fins : List String)
  | applyConfigMap (ns name : String) (cm : ConfigMap)
  | applyDeployment (ns name : String) (d : Deployment)
  | applyService (ns name : String) (s : Service)
  | applyIngress (ns name : String) (i : Ingress)
  | deleteIngress (ns name : String)
  | deleteDeployment (ns name : String)
  | deleteService (ns name : String)
  | deleteConfigMap (ns name : String)
  | patchStatusMerge (ns name : String) (st : RustOperatorStatus)
deriving DecidableEq, Repr

/-- Outcome of one reconcile invocation: the returned `Action`, a typed
`kube::Error` propagated by `?`, or an abrupt abort (`expect` panic). -/
inductive ROutcome where
  | ok (a : RAction)
  | err (e : KubeErr)
  | abort (msg : String)
deriving DecidableEq, Repr

/-- Responses of the store to each call the reconciler can make.  Fields for
calls whose result the source discards (`let _ = ...` / `.ok()`) are
present but never read. -/
structure StoreResponses where
  finPatch : Except KubeErr Unit
  cmPatch : Except KubeErr Unit
  deployPatch : Except KubeErr DeployReadback
  svcPatch : Except KubeErr Unit
  ingPatch : Except KubeErr Unit
  ingDelete : Except KubeErr Unit
  statusPatch : Except KubeErr Unit
  delDeploy : Except KubeErr Unit
  delSvc : Except KubeErr Unit
  delCm : Except KubeErr Unit

/-! ## `src/src/main.rs` helpers and reconciler -/

namespace MainSrc

/-- Source `const FINALIZER` (`main.rs` line 125). -/
def FINALIZER : String := "rustoperators.rootster.xyz/finalizer"

/-- Source `labels` (`main.rs` 326-331); the `BTreeMap` iterates sorted by key. -/
def labels (name : String) : List (String × String) :=
  [("app.kubernetes.io/instance", name), ("app.kubernetes.io/name", "webapp")]

/-- Source `desired_configmap` (`main.rs` 333-355). -/
def desired_configmap (name : String) (labels : List (String × String)) (html : String)
    (owner : OwnerReference) : ConfigMap :=
  let content :=
    if rustTrim html = "" then
      "<!doctype html><html><body><h1>Hello from Rust operator</h1></body></html>"
    else html
  { metadata := { name := some name, labels := some labels, annotations := none,
                  owner_references := some [owner] },
    data := some [("index.html", content)] }

/-- Source `RolloutInputs` (`main.rs` 357-361). -/
structure RolloutInputs where
  html : String

/-- Source `rollout_fingerprint` (`main.rs` 363-368): SHA-256 over the
`serde_json` serialization of the inputs, rendered as lowercase hex. -/
def rollout_fingerprint (inp : RolloutInputs) : String :=
  sha256hex (utf8Encode (serializeRolloutInputs inp.html))

/-- Source `desired_deployment` (`main.rs` 370-432); note the container image
`nginx:1.27-alpine`. -/
def desired_deployment (name : String) (labels : List (String × String)) (replicas : Int)
    (owner : OwnerReference) (spec : RustOperatorSpec) : Deployment :=
  let fp := rollout_fingerprint { html := spec.html }
  { metadata := { name := some name, labels := some labels, annotations := none,
                  owner_references := some [owner] },
    spec := some
      { replicas := some replicas,
        selector := { match_labels := some labels },
        template :=
          { metadata := some { name := none, labels := some labels,
                               annotations := some [("rootster.xyz/rollout-hash", fp)],
                               owner_references := none },
            spec := some
              { containers :=
                  [{ name := "nginx", image := some "nginx:1.27-alpine",
                     ports := some [{ container_port := 80 }],
                     volume_mounts := some [{ name := "html",
                                              mount_path := "/usr/share/nginx/html",
                                              read_only := some true }] }],
                volumes := some [{ name := "html", config_map := some { name := name } }] } } } }

/-- Source `desired_service` (`main.rs` 434-459). -/
def desired_service (name : String) (labels : List (String × String)) (svc_type : String)
    (owner : OwnerReference) : Service :=
  { metadata := { name := some (name ++ "-service"), labels := some labels, annotations := none,
                  owner_references := some [owner] },
    spec := some
      { selector := some labels,
        ports := some [{ port := 80, target_port := some (IntOrString.int 80) }],
        type_ := some svc_type } }

/-- Source `desired_ingress` (`main.rs` 461-515). -/
def desired_ingress (name : String) (labels : List (String × String)) (svc_name : String)
    (host : String) (tls_secret : String) (owner : OwnerReference) : Ingress :=
  let backend : IngressBackend :=
    { service := some { name := svc_name, port := some { number := some 80, name := none } },
      resource := none }
  let path : HTTPIngressPath := { backend := backend, path := some "/", path_type := "Prefix" }
  let rule : IngressRule :=
    { host := some host, http := some { paths := [path] } }
  let tls : Option (List IngressTLS) :=
    if tls_secret = "" then none
    else some [{ hosts := some [host], secret_name := some tls_secret }]
  { metadata := { name := some name, labels := some labels, annotations := none,
                  owner_references := some [owner] },
    spec := some { ingress_class_name := none, rules := some [rule], tls := tls } }

/-- Source `upsert_condition` (`main.rs` 518-524): `iter().position` on the type,
replace in place on a hit, push otherwise. -/
def upsert_condition (list : List HwCondition) (newc : HwCondition) : List HwCondition :=
  match position (fun c => c.type_ == newc.type_) list with
  | some i => list.set i newc
  | none => list ++ [newc]

/-- Body of the merge patch issued by `ensure_finalizer` (`main.rs`
300-308): the list `[FINALIZER]` when ensuring presence, `[]` when
removing. -/
def finalizers_patch (present : Bool) : List String :=
  if present then [FINALIZER] else []

/-- Source `ready` in the reconciler (`main.rs` 240-244): the field
`status.ready_replicas` of the applied Deployment, defaulting to 0 when status or the field is
absent. -/
def readyCount (dob : DeployReadback) : Int :=
  (dob.status.bind (fun s => s.ready_replicas)).getD 0

/-- Source `ready_condition` (`main.rs` 246-259). -/
def ready_condition (ready : Int) : HwCondition :=
  { type_ := "Ready",
    status := if ready > 0 then "True" else "False",
    reason := some (if ready > 0 then "PodsAvailable" else "Scaling"),
    message := some ("ready_replicas=" ++ toString ready) }

/-- Status recomputation (`main.rs` 261-272): overwrite `observed_message`
and `ready_replicas` when they differ, then upsert the Ready condition. -/
def computeNewStatus (old : RustOperatorStatus) (message : String) (ready : Int)
    (cond : HwCondition) : RustOperatorStatus :=
  let s1 := if old.observed_message ≠ some message
            then { old with observed_message := some message } else old
  let s2 := if s1.ready_replicas ≠ some ready
            then { s1 with ready_replicas := some ready } else s1
  let conditions := s2.conditions.getD []
  { s2 with conditions := some (upsert_condition conditions cond) }

/-- Ingress step of the active path (`main.rs` 217-237): apply the Ingress
when the host is non-blank, otherwise best-effort delete (the delete
response is discarded by `.ok()`).  Returns the ops issued and the error to
propagate, if any. -/
def ingressPhase (ns name svc_name : String) (obj : RustOperator) (resp : StoreResponses)
    (owner : OwnerReference) : List Op × Option KubeErr :=
  if rustTrim obj.spec.ingress_host ≠ "" then
    let ing := desired_ingress name (labels name) svc_name obj.spec.ingress_host
      obj.spec.tls_secret_name owner
    match resp.ingPatch with
    | .error e => ([Op.applyIngress ns name ing], some e)
    | .ok _ => ([Op.applyIngress ns name ing], none)
  else
    ([Op.deleteIngress ns name], none)

/-- Status step of the active path (`main.rs` 239-283): compute the new
status and merge-patch it only when it differs from the stored one, then
request a 30-second requeue. -/
def statusPhase (ns name : String) (obj : RustOperator) (resp : StoreResponses)
    (dob : DeployReadback) : List Op × ROutcome :=
  let ready := readyCount dob
  let cond := ready_condition ready
  let old_status := obj.status.getD default
  let new_status := computeNewStatus old_status obj.spec.message ready cond
  if new_status ≠ old_status then
    match resp.statusPatch with
    | .error e => ([Op.patchStatusMerge ns name new_status], .err e)
    | .ok _ => ([Op.patchStatusMerge ns name new_status], .ok (.requeue 30))
  else ([], .ok (.requeue 30))

/-- Tail of the active path after the Service apply succeeded: the Ingress
step followed by the status step (`main.rs` 217-283), prefixed by the trace
accumulated so far. -/
def tailPhases (ns name svc_name : String) (obj : RustOperator) (resp : StoreResponses)
    (dob : DeployReadback) (owner : OwnerReference) (t4 : List Op) : List Op × ROutcome :=
  let ip := ingressPhase ns name svc_name obj resp owner
  match ip.2 with
  | some e => (t4 ++ ip.1, .err e)
  | none =>
    let sp := statusPhase ns name obj resp dob
    (t4 ++ ip.1 ++ sp.1, sp.2)

/-- The reconciler (`main.rs` 165-284; `controller.rs` 59-169 is the same
logic).  Returns the store operations issued, in order, and the outcome. -/
def reconcile (obj : RustOperator) (resp : StoreResponses) : List Op × ROutcome :=
  let ns := nsOf obj
  let name := name_any obj
  if obj.metadata.deletion_timestamp.isSome then
    let t := [Op.deleteDeployment ns name, Op.deleteService ns (name ++ "-service"),
              Op.deleteConfigMap ns name,
              Op.patchMergeFinalizers ns name (finalizers_patch false)]
    match resp.finPatch with
    | .error e => (t, .err e)
    | .ok _ => (t, .ok .awaitChange)
  else
    let t1 := [Op.patchMergeFinalizers ns name (finalizers_patch true)]
    match resp.finPatch with
    | .error e => (t1, .err e)
    | .ok _ =>
      let lbls := labels name
      match controller_owner_ref obj with
      | none => (t1, .abort "owner ref")
      | some owner =>
        let cm := desired_configmap name lbls obj.spec.html owner
        let t2 := t1 ++ [Op.applyConfigMap ns name cm]
        match resp.cmPatch with
        | .error e => (t2, .err e)
        | .ok _ =>
          let deploy := desired_deployment name lbls obj.spec.replicas owner obj.spec
          let t3 := t2 ++ [Op.applyDeployment ns name deploy]
          match resp.deployPatch with
          | .error e => (t3, .err e)
          | .ok dob =>
            let svc_name := name ++ "-service"
            let svc := desired_service name lbls obj.spec.service_type owner
            let t4 := t3 ++ [Op.applyService ns svc_name svc]
            match resp.svcPatch with
            | .error e => (t4, .err e)
            | .ok _ => tailPhases ns name svc_name obj resp dob owner t4

end MainSrc

/-! ## `src/src/resources.rs` builders -/

namespace ResourcesSrc

/-- Source `pub const FINALIZER` (`resources.rs` line 22). -/
def FINALIZER : String := "rustoperators.rootster.xyz/finalizer"

/-- Source `labels` (`resources.rs` 24-29). -/
def labels (name : String) : List (String × String) :=
  [("app.kubernetes.io/instance", name), ("app.kubernetes.io/name", "webapp")]

/-- Source `desired_configmap` (`resources.rs` 31-53). -/
def desired_configmap (name : String) (labels : List (String × String)) (html : String)
    (owner : OwnerReference) : ConfigMap :=
  let content :=
    if rustTrim html = "" then
      "<!doctype html><html><body><h1>Hello from Rust operator</h1></body></html>"
    else html
  { metadata := { name := some name, labels := some labels, annotations := none,
                  owner_references := some [owner] },
    data := some [("index.html", content)] }

/-- Source `RolloutInputs` (`resources.rs` 55-58). -/
structure RolloutInputs where
  html : String

/-- Source `rollout_fingerprint` (`resources.rs` 60-65). -/
def rollout_fingerprint (inp : RolloutInputs) : String :=
  sha256hex (utf8Encode (serializeRolloutInputs inp.html))

/-- Source `desired_deployment` (`resources.rs` 67-129); note the container image
`nginx:latest`. -/
def desired_deployment (name : String) (labels : List (String × String)) (replicas : Int)
    (owner : OwnerReference) (spec : RustOperatorSpec) : Deployment :=
  let fp := rollout_fingerprint { html := spec.html }
  { metadata := { name := some name, labels := some labels, annotations := none,
                  owner_references := some [owner] },
    spec := some
      { replicas := some replicas,
        selector := { match_labels := some labels },
        template :=
          { metadata := some { name := none, labels := some labels,
                               annotations := some [("rootster.xyz/rollout-hash", fp)],
                               owner_references := none },
            spec := some
              { containers :=
                  [{ name := "nginx", image := some "nginx:latest",
                     ports := some [{ container_port := 80 }],
                     volume_mounts := some [{ name := "html",
                                              mount_path := "/usr/share/nginx/html",
                                              read_only := some true }] }],
                volumes := some [{ name := "html", config_map := some { name := name } }] } } } }

/-- Source `desired_service` (`resources.rs` 131-156). -/
def desired_service (name : String) (labels : List (String × String)) (svc_type : String)
    (owner : OwnerReference) : Service :=
  { metadata := { name := some (name ++ "-service"), labels := some labels, annotations := none,
                  owner_references := some [owner] },
    spec := some
      { selector := some labels,
        ports := some [{ port := 80, target_port := some (IntOrString.int 80) }],
        type_ := some svc_type } }

/-- Source `desired_ingress` (`resources.rs` 158-212). -/
def desired_ingress (name : String) (labels : List (String × String)) (svc_name : String)
    (host : String) (tls_secret : String) (owner : OwnerReference) : Ingress :=
  let backend : IngressBackend :=
    { service := some { name := svc_name, port := some { number := some 80, name := none } },
      resource := none }
  let path : HTTPIngressPath := { backend := backend, path := some "/", path_type := "Prefix" }
  let rule : IngressRule :=
    { host := some host, http := some { paths := [path] } }
  let tls : Option (List IngressTLS) :=
    if tls_secret = "" then none
    else some [{ hosts := some [host], secret_name := some tls_secret }]
  { metadata := { name := some name, labels := some labels, annotations := none,
                  owner_references := some [owner] },
    spec := some { ingress_class_name := none, rules := some [rule], tls := tls } }

/-- Source `upsert_condition` (`resources.rs` 214-220). -/
def upsert_condition (list : List HwCondition) (newc : HwCondition) : List HwCondition :=
  match position (fun c => c.type_ == newc.type_) list with
  | some i => list.set i newc
  | none => list ++ [newc]

end ResourcesSrc

/-! ## Projections and concrete inputs used by the claims -/

/-- Image of the (single) container of the pod template of a Deployment. -/
def imageOf (d : Deployment) : Option String :=
  d.spec.bind fun ds => ds.template.spec.bind fun ps => ps.containers.head?.bind fun c => c.image

/-- Replace every container image of a Deployment, leaving all else as is. -/
def setImage (d : Deployment) (img : Option String) : Deployment :=
  { d with spec := d.spec.map fun ds =>
      { ds with template :=
        { ds.template with spec := ds.template.spec.map fun ps =>
          { ps with containers := ps.containers.map fun c => { c with image := img } } } } }

/-- TLS section of a built Ingress. -/
def ingressTLS (i : Ingress) : Option (List IngressTLS) :=
  i.spec.bind fun s => s.tls

/-- Pod-template annotations of a built Deployment. -/
def rolloutHashOf (d : Deployment) : Option (List (String × String)) :=
  d.spec.bind fun ds => ds.template.metadata.bind fun m => m.annotations

/-- Whether a store operation is an Ingress apply. -/
def isApplyIngress (op : Op) : Bool :=
  match op with
  | .applyIngress _ _ _ => true
  | _ => false

/-- A collision of the hash-over-canonical-serialization map: two distinct
serializations with the same digest. -/
def Sha256Collision (a b : List Char) : Prop :=
  a ≠ b ∧ sha256hex (utf8Encode a) = sha256hex (utf8Encode b)

def exOwner : OwnerReference :=
  { api_version := "rootster.xyz/v1", kind := "RustOperator", name := "demo", uid := "u1",
    controller := some true, block_owner_deletion := some true }

def exSpecA : RustOperatorSpec :=
  { message := "hi", html := "", replicas := 1, service_type := "ClusterIP",
    ingress_host := "", tls_secret_name := "" }

def exMetaActive : ResourceMeta :=
  { name := some "demo", generate_name := none, namespace_ := some "default", uid := some "u1",
    finalizers := some [MainSrc.FINALIZER], deletion_timestamp := none }

/-- A resource carrying a foreign finalizer token next to the controller token. -/
def exMetaOther : ResourceMeta :=
  { exMetaActive with finalizers := some ["other.example.com/keep", MainSrc.FINALIZER] }

def exObjActive : RustOperator :=
  { metadata := exMetaActive, spec := exSpecA, status := none }

def exObjNoUid : RustOperator :=
  { metadata := { exMetaActive with uid := none }, spec := exSpecA, status := none }

def exObjTerm : RustOperator :=
  { metadata := { exMetaActive with deletion_timestamp := some "2026-01-01T00:00:00Z" },
    spec := exSpecA, status := none }

/-- A store that answers every call successfully, reporting one ready
replica on the Deployment apply. -/
def okResponses : StoreResponses :=
  { finPatch := .ok (), cmPatch := .ok (),
    deployPatch := .ok { status := some { ready_replicas := some 1 } },
    svcPatch := .ok (), ingPatch := .ok (), ingDelete := .ok (), statusPatch := .ok (),
    delDeploy := .ok (), delSvc := .ok (), delCm := .ok () }

/-! ## Lemmas: injectivity of the canonical serialization -/

/-! ## Lemmas: injectivity of the canonical serialization -/

theorem hexDig_inj (m n : Nat) (hm : m < 16) (hn : n < 16) (h : hexDig m = hexDig n) : m = n := by
  have hfin : ∀ a b : Fin 16, hexDig a.val = hexDig b.val → a = b := by decide
  exact congrArg Fin.val (hfin ⟨m, hm⟩ ⟨n, hn⟩ h)

theorem jsonEscapeChar_cases (c : Char) :
    (jsonEscapeChar c = [c] ∧ c ≠ '\\') ∨
    (∃ e, jsonEscapeChar c = ['\\', e] ∧ e ≠ 'u' ∧ shortUnesc e = some c) ∨
    (c.toNat < 32 ∧
      jsonEscapeChar c = ['\\', 'u', '0', '0', hexDig (c.toNat / 16), hexDig (c.toNat % 16)]) := by
  unfold jsonEscapeChar
  by_cases h1 : c = '\"'
  · subst h1; exact Or.inr (Or.inl ⟨'\"', by simp, by decide, by decide⟩)
  by_cases h2 : c = '\\'
  · subst h2; exact Or.inr (Or.inl ⟨'\\', by simp, by decide, by decide⟩)
  by_cases h3 : c = '\x08'
  · subst h3; exact Or.inr (Or.inl ⟨'b', by simp, by decide, by decide⟩)
  by_cases h4 : c = '\x09'
  · subst h4; exact Or.inr (Or.inl ⟨'t', by simp, by decide, by decide⟩)
  by_cases h5 : c = '\x0a'
  · subst h5; exact Or.inr (Or.inl ⟨'n', by simp, by decide, by decide⟩)
  by_cases h6 : c = '\x0c'
  · subst h6; exact Or.inr (Or.inl ⟨'f', by simp, by decide, by decide⟩)
  by_cases h7 : c = '\x0d'
  · subst h7; exact Or.inr (Or.inl ⟨'r', by simp, by decide, by decide⟩)
  by_cases h8 : c.toNat < 32
  · exact Or.inr (Or.inr ⟨h8, by simp [h1, h2, h3, h4, h5, h6, h7, h8]⟩)
  · exact Or.inl ⟨by simp [h1, h2, h3, h4, h5, h6, h7, h8], h2⟩

theorem jsonEscapeChar_ne_nil (c : Char) : jsonEscapeChar c ≠ [] := by
  rcases jsonEscapeChar_cases c with ⟨h, _⟩ | ⟨e, h, _, _⟩ | ⟨_, h⟩ <;> simp [h]

theorem jsonEscapeChar_step {c c' : Char} {x y : List Char}
    (h : jsonEscapeChar c ++ x = jsonEscapeChar c' ++ y) : c = c' ∧ x = y := by
  rcases jsonEscapeChar_cases c with ⟨hc, hne⟩ | ⟨e, hc, hu, hd⟩ | ⟨hlt, hc⟩ <;>
    rcases jsonEscapeChar_cases c' with ⟨hc', hne'⟩ | ⟨e', hc', hu', hd'⟩ | ⟨hlt', hc'⟩ <;>
    rw [hc, hc'] at h <;>
    simp only [List.cons_append, List.nil_append, List.cons.injEq] at h
  · exact ⟨h.1, h.2⟩
  · exact absurd h.1 hne
  · exact absurd h.1 hne
  · exact absurd h.1.symm hne'
  · obtain ⟨he, hxy⟩ := h.2
    subst he
    rw [hd'] at hd
    exact ⟨(Option.some.inj hd).symm, hxy⟩
  · exact absurd h.2.1 hu
  · exact absurd h.1.symm hne'
  · exact absurd h.2.1.symm hu'
  · obtain ⟨-, -, -, -, hd1, hd2, hxy⟩ := h
    have e1 : c.toNat / 16 = c'.toNat / 16 :=
      hexDig_inj _ _ (by omega) (by omega) hd1
    have e2 : c.toNat % 16 = c'.toNat % 16 :=
      hexDig_inj _ _ (by omega) (by omega) hd2
    have et : c.toNat = c'.toNat := by omega
    have : Char.ofNat c.toNat = Char.ofNat c'.toNat := by rw [et]
    rw [Char.ofNat_toNat, Char.ofNat_toNat] at this
    exact ⟨this, hxy⟩

theorem jsonEscape_inj : ∀ a b : List Char, jsonEscape a = jsonEscape b → a = b := by
  intro a
  induction a with
  | nil =>
    intro b h
    cases b with
    | nil => rfl
    | cons c s =>
      exfalso
      have h2 : jsonEscapeChar c ++ jsonEscape s = [] := h.symm
      exact jsonEscapeChar_ne_nil c (List.append_eq_nil.mp h2).1
  | cons c s ih =>
    intro b h
    cases b with
    | nil =>
      exfalso
      have h2 : jsonEscapeChar c ++ jsonEscape s = [] := h
      exact jsonEscapeChar_ne_nil c (List.append_eq_nil.mp h2).1
    | cons c' s' =>
      have h2 : jsonEscapeChar c ++ jsonEscape s = jsonEscapeChar c' ++ jsonEscape s' := h
      obtain ⟨hcc, hss⟩ := jsonEscapeChar_step h2
      rw [hcc, ih _ hss]

theorem serializeRolloutInputs_inj {s1 s2 : String}
    (h : serializeRolloutInputs s1 = serializeRolloutInputs s2) : s1 = s2 := by
  simp only [serializeRolloutInputs, List.cons.injEq, true_and] at h
  cases s1
  cases s2
  exact congrArg String.mk (jsonEscape_inj _ _ (List.append_cancel_right h))

/-- Claim C2: the rollout fingerprint of a spec agrees between two specs
exactly when their `html` fields agree, up to a collision of the SHA-256
hash over the canonical serialization; and the Deployment built from a spec
carries exactly that fingerprint as its pod-template rollout-hash
annotations. -/
theorem claim_c2 (s1 s2 : RustOperatorSpec) :
    (MainSrc.rollout_fingerprint { html := s1.html } = MainSrc.rollout_fingerprint { html := s2.html }
      ↔ s1.html = s2.html ∨
        Sha256Collision (serializeRolloutInputs s1.html) (serializeRolloutInputs s2.html))
  ∧ (∀ (name : String) (labels : List (String × String)) (replicas : Int)
      (owner : OwnerReference),
      rolloutHashOf (MainSrc.desired_deployment name labels replicas owner s1)
        = some [("rootster.xyz/rollout-hash", MainSrc.rollout_fingerprint { html := s1.html })]) := by
  constructor
  · constructor
    · intro h
      by_cases hh : s1.html = s2.html
      · exact Or.inl hh
      · exact Or.inr ⟨fun hs => hh (serializeRolloutInputs_inj hs), h⟩
    · rintro (hh | ⟨_, heq⟩)
      · simp [MainSrc.rollout_fingerprint, hh]
      · exact heq
  · intro name labels replicas owner
    rfl

/-- Claim C1 counterexample: on a resource whose finalizer list carries a
foreign token next to the controller token, the removal merge patch clears the
foreign token too (the merge patch replaces the whole array), and the
ensure merge patch is not a no-op even though the controller token is
already present. -/
theorem claim_c1_counterexample :
    ("other.example.com/keep" ∈ exMetaOther.finalizers.getD []
      ∧ "other.example.com/keep" ≠ MainSrc.FINALIZER
      ∧ MainSrc.FINALIZER ∈ exMetaOther.finalizers.getD [])
  ∧ "other.example.com/keep"
      ∉ (applyFinalizersMergePatch exMetaOther (MainSrc.finalizers_patch false)).finalizers.getD []
  ∧ applyFinalizersMergePatch exMetaOther (MainSrc.finalizers_patch true) ≠ exMetaOther
  ∧ "other.example.com/keep"
      ∉ (applyFinalizersMergePatch exMetaOther (MainSrc.finalizers_patch true)).finalizers.getD [] := by
  decide

/-- Claim C1 (amended): both finalizer merge patches replace the whole
finalizer list — ensuring sets it to exactly `[FINALIZER]` (idempotent, and
a no-op precisely when the list already equals `[FINALIZER]`), removal sets
it to `[]`, clearing the controller token together with any other tokens
— while every other metadata field is left unchanged. -/
theorem claim_c1 (m : ResourceMeta) :
    (applyFinalizersMergePatch m (MainSrc.finalizers_patch true)).finalizers
        = some [MainSrc.FINALIZER]
  ∧ applyFinalizersMergePatch (applyFinalizersMergePatch m (MainSrc.finalizers_patch true))
        (MainSrc.finalizers_patch true)
      = applyFinalizersMergePatch m (MainSrc.finalizers_patch true)
  ∧ (m.finalizers = some [MainSrc.FINALIZER] →
      applyFinalizersMergePatch m (MainSrc.finalizers_patch true) = m)
  ∧ (applyFinalizersMergePatch m (MainSrc.finalizers_patch false)).finalizers = some []
  ∧ MainSrc.FINALIZER
      ∉ (applyFinalizersMergePatch m (MainSrc.finalizers_patch false)).finalizers.getD []
  ∧ (applyFinalizersMergePatch m (MainSrc.finalizers_patch true)).name = m.name
  ∧ (applyFinalizersMergePatch m (MainSrc.finalizers_patch true)).namespace_ = m.namespace_
  ∧ (applyFinalizersMergePatch m (MainSrc.finalizers_patch true)).uid = m.uid
  ∧ (applyFinalizersMergePatch m (MainSrc.finalizers_patch true)).deletion_timestamp
      = m.deletion_timestamp
  ∧ (applyFinalizersMergePatch m (MainSrc.finalizers_patch false)).name = m.name
  ∧ (applyFinalizersMergePatch m (MainSrc.finalizers_patch false)).namespace_ = m.namespace_
  ∧ (applyFinalizersMergePatch m (MainSrc.finalizers_patch false)).uid = m.uid
  ∧ (applyFinalizersMergePatch m (MainSrc.finalizers_patch false)).deletion_timestamp
      = m.deletion_timestamp := by
  refine ⟨rfl, rfl, ?_, rfl, by simp [applyFinalizersMergePatch, MainSrc.finalizers_patch],
    rfl, rfl, rfl, rfl, rfl, rfl, rfl, rfl⟩
  intro h
  cases m
  simp_all [applyFinalizersMergePatch, MainSrc.finalizers_patch]

/-- Claim C1 witness: on a resource already carrying exactly the
controller token, the ensure patch is a no-op. -/
theorem claim_c1_witness :
    applyFinalizersMergePatch exMetaActive (MainSrc.finalizers_patch true) = exMetaActive :=
  (claim_c1 exMetaActive).2.2.1 rfl

/-- Claim C3: the built Ingress has a TLS block exactly when the TLS secret
name is not the empty string, and then it references exactly that secret
and lists exactly the given host. -/
theorem claim_c3 (name : String) (labels : List (String × String))
    (svc_name host tls_secret : String) (owner : OwnerReference) :
    (ingressTLS (MainSrc.desired_ingress name labels svc_name host tls_secret owner) ≠ none
      ↔ tls_secret ≠ "")
  ∧ (tls_secret ≠ "" →
      ingressTLS (MainSrc.desired_ingress name labels svc_name host tls_secret owner)
        = some [{ hosts := some [host], secret_name := some tls_secret }]) := by
  by_cases h : tls_secret = "" <;> simp [MainSrc.desired_ingress, ingressTLS, h]

/-- Claim C3 witness at a concrete non-empty secret. -/
theorem claim_c3_witness :
    ingressTLS (MainSrc.desired_ingress "demo" (MainSrc.labels "demo") "demo-service"
        "example.com" "tls-secret" exOwner)
      = some [{ hosts := some ["example.com"], secret_name := some "tls-secret" }] :=
  (claim_c3 "demo" (MainSrc.labels "demo") "demo-service" "example.com" "tls-secret" exOwner).2
    (by decide)

/-- Claim C4 counterexample: the two `desired_deployment` builders disagree
— `main.rs` sets the container image `nginx:1.27-alpine` while
`resources.rs` sets `nginx:latest`. -/
theorem claim_c4_counterexample :
    MainSrc.desired_deployment "demo" (MainSrc.labels "demo") 1 exOwner exSpecA
      ≠ ResourcesSrc.desired_deployment "demo" (ResourcesSrc.labels "demo") 1 exOwner exSpecA := by
  intro h
  have h2 := congrArg imageOf h
  have hm : imageOf (MainSrc.desired_deployment "demo" (MainSrc.labels "demo") 1 exOwner exSpecA)
      = some "nginx:1.27-alpine" := rfl
  have hr : imageOf
      (ResourcesSrc.desired_deployment "demo" (ResourcesSrc.labels "demo") 1 exOwner exSpecA)
      = some "nginx:latest" := rfl
  rw [hm, hr] at h2
  exact absurd h2 (by decide)

/-- Claim C4 (amended): every same-named builder of `main.rs` and
`resources.rs` agrees on every input, except `desired_deployment`: the two
Deployments agree on everything but the container image, `main.rs` using
`nginx:1.27-alpine` and `resources.rs` using `nginx:latest`. -/
theorem claim_c4 (name : String) (labels : List (String × String)) (replicas : Int)
    (owner : OwnerReference) (spec : RustOperatorSpec)
    (html svc_type svc_name host tls_secret : String)
    (l : List HwCondition) (n : HwCondition) :
    MainSrc.labels name = ResourcesSrc.labels name
  ∧ MainSrc.desired_configmap name labels html owner
      = ResourcesSrc.desired_configmap name labels html owner
  ∧ MainSrc.desired_service name labels svc_type owner
      = ResourcesSrc.desired_service name labels svc_type owner
  ∧ MainSrc.desired_ingress name labels svc_name host tls_secret owner
      = ResourcesSrc.desired_ingress name labels svc_name host tls_secret owner
  ∧ MainSrc.upsert_condition l n = ResourcesSrc.upsert_condition l n
  ∧ MainSrc.rollout_fingerprint { html := html }
      = ResourcesSrc.rollout_fingerprint { html := html }
  ∧ MainSrc.desired_deployment name labels replicas owner spec
      = setImage (ResourcesSrc.desired_deployment name labels replicas owner spec)
          (some "nginx:1.27-alpine")
  ∧ imageOf (MainSrc.desired_deployment name labels replicas owner spec)
      = some "nginx:1.27-alpine"
  ∧ imageOf (ResourcesSrc.desired_deployment name labels replicas owner spec)
      = some "nginx:latest" :=
  ⟨rfl, rfl, rfl, rfl, rfl, rfl, rfl, rfl, rfl⟩

/-- Claim C7: the built ConfigMap has the single data key `index.html`,
holding the html verbatim when non-blank after trimming, else the fixed
placeholder page. -/
theorem claim_c7 (name : String) (labels : List (String × String)) (html : String)
    (owner : OwnerReference) :
    (rustTrim html ≠ "" →
      (MainSrc.desired_configmap name labels html owner).data = some [("index.html", html)])
  ∧ (rustTrim html = "" →
      (MainSrc.desired_configmap name labels html owner).data
        = some [("index.html",
            "<!doctype html><html><body><h1>Hello from Rust operator</h1></body></html>")]) := by
  constructor <;> intro h <;> simp [MainSrc.desired_configmap, h]

/-- Claim C7 witness: one non-blank html and one blank html. -/
theorem claim_c7_witness :
    (MainSrc.desired_configmap "demo" (MainSrc.labels "demo") "<p>x</p>" exOwner).data
        = some [("index.html", "<p>x</p>")]
  ∧ (MainSrc.desired_configmap "demo" (MainSrc.labels "demo") " " exOwner).data
        = some [("index.html",
            "<!doctype html><html><body><h1>Hello from Rust operator</h1></body></html>")] :=
  ⟨(claim_c7 "demo" (MainSrc.labels "demo") "<p>x</p>" exOwner).1 (by decide),
   (claim_c7 "demo" (MainSrc.labels "demo") " " exOwner).2 (by decide)⟩

/-! ## Lemmas: `Iterator::position` and condition lists -/

theorem position_eq_none_iff {α : Type} (p : α → Bool) (l : List α) :
    position p l = none ↔ ∀ a ∈ l, p a = false := by
  induction l with
  | nil => simp [position]
  | cons a t ih =>
    by_cases h : p a <;> simp [position, h, ih]

theorem position_some_spec {α : Type} (p : α → Bool) (l : List α) (i : Nat)
    (h : position p l = some i) : ∃ hlt : i < l.length, p (l.get ⟨i, hlt⟩) = true := by
  induction l generalizing i with
  | nil => simp [position] at h
  | cons a t ih =>
    by_cases hp : p a
    · simp [position, hp] at h
      subst h
      exact ⟨by simp, by simpa using hp⟩
    · simp [position, hp] at h
      obtain ⟨j, hj, hji⟩ := h
      obtain ⟨hlt, hpj⟩ := ih j hj
      subst hji
      exact ⟨by simpa using Nat.succ_lt_succ hlt, by simpa using hpj⟩

theorem pairwise_types_set (l : List HwCondition) (i : Nat) (n : HwCondition)
    (hp : List.Pairwise (fun a b => a.type_ ≠ b.type_) l)
    (hlt : i < l.length) (hty : (l.get ⟨i, hlt⟩).type_ = n.type_) :
    List.Pairwise (fun a b => a.type_ ≠ b.type_) (l.set i n) := by
  induction l generalizing i with
  | nil => simp at hlt
  | cons a t ih =>
    cases i with
    | zero =>
      simp only [List.set]
      rw [List.pairwise_cons] at hp ⊢
      have hty0 : a.type_ = n.type_ := by simpa using hty
      exact ⟨fun b hb => hty0 ▸ hp.1 b hb, hp.2⟩
    | succ j =>
      simp only [List.set]
      rw [List.pairwise_cons] at hp ⊢
      have hlt' : j < t.length := by simpa using hlt
      have hty' : (t.get ⟨j, hlt'⟩).type_ = n.type_ := by simpa using hty
      refine ⟨fun b hb => ?_, ih j hp.2 hlt' hty'⟩
      rcases List.mem_or_eq_of_mem_set hb with hbt | hbn
      · exact hp.1 b hbt
      · subst hbn
        have := hp.1 (t.get ⟨j, hlt'⟩) (List.get_mem t j hlt')
        rw [hty'] at this
        exact this

/-- Claim C8: upsert appends when the type is new (everything else
untouched), replaces the first entry of that type in place otherwise
(length and other positions untouched), and preserves pairwise-distinct
condition types. -/
theorem claim_c8 (l : List HwCondition) (n : HwCondition) :
    ((∀ c ∈ l, c.type_ ≠ n.type_) → MainSrc.upsert_condition l n = l ++ [n])
  ∧ (∀ i, position (fun c => c.type_ == n.type_) l = some i →
      MainSrc.upsert_condition l n = l.set i n
      ∧ (MainSrc.upsert_condition l n).length = l.length
      ∧ (∃ hlt : i < l.length, (l.get ⟨i, hlt⟩).type_ = n.type_)
      ∧ ∀ j, j ≠ i → (MainSrc.upsert_condition l n)[j]? = l[j]?)
  ∧ (List.Pairwise (fun a b => a.type_ ≠ b.type_) l →
      List.Pairwise (fun a b => a.type_ ≠ b.type_) (MainSrc.upsert_condition l n)) := by
  refine ⟨?_, ?_, ?_⟩
  · intro h
    have hn : position (fun c => c.type_ == n.type_) l = none :=
      (position_eq_none_iff _ _).mpr fun a ha => by
        simpa using h a ha
    simp [MainSrc.upsert_condition, hn]
  · intro i hi
    obtain ⟨hlt, hp⟩ := position_some_spec _ _ _ hi
    have heq : MainSrc.upsert_condition l n = l.set i n := by
      simp [MainSrc.upsert_condition, hi]
    refine ⟨heq, by simp [heq], ⟨hlt, by simpa using hp⟩, ?_⟩
    intro j hj
    rw [heq]
    exact List.getElem?_set_ne (fun hh => hj hh.symm)
  · intro hp
    rcases hex : position (fun c => c.type_ == n.type_) l with - | i
    · have hall := (position_eq_none_iff _ _).mp hex
      have hres : MainSrc.upsert_condition l n = l ++ [n] := by
        simp [MainSrc.upsert_condition, hex]
      rw [hres, List.pairwise_append]
      refine ⟨hp, by simp, ?_⟩
      intro a ha b hb
      simp only [List.mem_singleton] at hb
      subst hb
      simpa using hall a ha
    · obtain ⟨hlt, hpt⟩ := position_some_spec _ _ _ hex
      have hres : MainSrc.upsert_condition l n = l.set i n := by
        simp [MainSrc.upsert_condition, hex]
      rw [hres]
      exact pairwise_types_set l i n hp hlt (by simpa using hpt)

/-- Claim C8 witness: an append on a fresh type, a replace-in-place at the
first matching index, and a pairwise-distinct list staying distinct. -/
theorem claim_c8_witness :
    (MainSrc.upsert_condition [⟨"Other", "True", none, none⟩] ⟨"Ready", "True", none, none⟩
        = [⟨"Other", "True", none, none⟩] ++ [⟨"Ready", "True", none, none⟩])
  ∧ (MainSrc.upsert_condition [⟨"Ready", "False", none, none⟩, ⟨"Other", "True", none, none⟩]
        ⟨"Ready", "True", none, none⟩
      = [⟨"Ready", "False", none, none⟩, ⟨"Other", "True", none, none⟩].set 0
          ⟨"Ready", "True", none, none⟩)
  ∧ List.Pairwise (fun a b => a.type_ ≠ b.type_)
      (MainSrc.upsert_condition [⟨"Ready", "False", none, none⟩, ⟨"Other", "True", none, none⟩]
        ⟨"Ready", "True", none, none⟩) :=
  ⟨(claim_c8 [⟨"Other", "True", none, none⟩] ⟨"Ready", "True", none, none⟩).1 (by decide),
   ((claim_c8 [⟨"Ready", "False", none, none⟩, ⟨"Other", "True", none, none⟩]
      ⟨"Ready", "True", none, none⟩).2.1 0 (by decide)).1,
   (claim_c8 [⟨"Ready", "False", none, none⟩, ⟨"Other", "True", none, none⟩]
      ⟨"Ready", "True", none, none⟩).2.2 (by decide)⟩

/-! ## Lemmas: reconcile phases -/

theorem statusPhase_not_abort (ns name : String) (obj : RustOperator) (resp : StoreResponses)
    (dob : DeployReadback) (m : String) :
    (MainSrc.statusPhase ns name obj resp dob).2 ≠ .abort m := by
  unfold MainSrc.statusPhase
  split <;> dsimp only <;> split <;> simp

theorem statusPhase_no_applyIngress (ns name : String) (obj : RustOperator)
    (resp : StoreResponses) (dob : DeployReadback) :
    (MainSrc.statusPhase ns name obj resp dob).1.any isApplyIngress = false := by
  unfold MainSrc.statusPhase
  split <;> dsimp only <;> split <;> simp [isApplyIngress]

theorem ingressPhase_apply_iff (ns name svc_name : String) (obj : RustOperator)
    (resp : StoreResponses) (ow : OwnerReference) :
    ((MainSrc.ingressPhase ns name svc_name obj resp ow).1.any isApplyIngress = true)
      ↔ rustTrim obj.spec.ingress_host ≠ "" := by
  unfold MainSrc.ingressPhase
  split
  · cases resp.ingPatch <;> simp [isApplyIngress, *]
  · simp [isApplyIngress, *]

theorem ingressPhase_blank (ns name svc_name : String) (obj : RustOperator)
    (resp : StoreResponses) (ow : OwnerReference)
    (h : rustTrim obj.spec.ingress_host = "") :
    MainSrc.ingressPhase ns name svc_name obj resp ow = ([Op.deleteIngress ns name], none) := by
  unfold MainSrc.ingressPhase
  rw [if_neg]
  simp [h]

theorem tailPhases_not_abort (ns name svc_name : String) (obj : RustOperator)
    (resp : StoreResponses) (dob : DeployReadback) (ow : OwnerReference) (t4 : List Op)
    (m : String) :
    (MainSrc.tailPhases ns name svc_name obj resp dob ow t4).2 ≠ .abort m := by
  unfold MainSrc.tailPhases
  rcases hip : MainSrc.ingressPhase ns name svc_name obj resp ow with ⟨ops, oe⟩
  cases oe
  · simpa using statusPhase_not_abort ns name obj resp dob m
  · simp

theorem tailPhases_any_applyIngress (ns name svc_name : String) (obj : RustOperator)
    (resp : StoreResponses) (dob : DeployReadback) (ow : OwnerReference) (t4 : List Op)
    (ht4 : t4.any isApplyIngress = false) :
    ((MainSrc.tailPhases ns name svc_name obj resp dob ow t4).1.any isApplyIngress = true)
      ↔ rustTrim obj.spec.ingress_host ≠ "" := by
  unfold MainSrc.tailPhases
  have hiff := ingressPhase_apply_iff ns name svc_name obj resp ow
  rcases hip : MainSrc.ingressPhase ns name svc_name obj resp ow with ⟨ops, oe⟩
  rw [hip] at hiff
  cases oe
  · simpa [List.any_append, ht4, statusPhase_no_applyIngress] using hiff
  · simpa [List.any_append, ht4] using hiff

theorem tailPhases_deleteIngress_mem (ns name svc_name : String) (obj : RustOperator)
    (resp : StoreResponses) (dob : DeployReadback) (ow : OwnerReference) (t4 : List Op)
    (h : rustTrim obj.spec.ingress_host = "") :
    Op.deleteIngress ns name ∈ (MainSrc.tailPhases ns name svc_name obj resp dob ow t4).1 := by
  unfold MainSrc.tailPhases
  rw [ingressPhase_blank ns name svc_name obj resp ow h]
  simp

/-- Claim C6: on a resource marked for deletion, the reconcile issues
exactly the three child deletes by their deterministic names followed by
the finalizer-removal merge patch, ignores every delete error, and — when
the finalizer patch succeeds — returns `await_change`, scheduling no timed
re-invocation. -/
theorem claim_c6 (obj : RustOperator) (resp : StoreResponses)
    (h1 : obj.metadata.deletion_timestamp.isSome = true) :
    (MainSrc.reconcile obj resp).1 =
      [Op.deleteDeployment (nsOf obj) (name_any obj),
       Op.deleteService (nsOf obj) (name_any obj ++ "-service"),
       Op.deleteConfigMap (nsOf obj) (name_any obj),
       Op.patchMergeFinalizers (nsOf obj) (name_any obj) (MainSrc.finalizers_patch false)]
  ∧ (∀ e1 e2 e3, MainSrc.reconcile obj
        { resp with delDeploy := e1, delSvc := e2, delCm := e3 } = MainSrc.reconcile obj resp)
  ∧ (resp.finPatch = .ok () → (MainSrc.reconcile obj resp).2 = .ok .awaitChange) := by
  refine ⟨?_, ?_, ?_⟩
  · cases hf : resp.finPatch <;> simp [MainSrc.reconcile, h1, hf]
  · intro e1 e2 e3
    obtain ⟨f, cm, dp, sv, ip, idel, st, dd, ds, dc⟩ := resp
    rfl
  · intro hf
    simp [MainSrc.reconcile, h1, hf]

/-- Claim C6 witness: a terminating resource against an all-ok store. -/
theorem claim_c6_witness :
    (MainSrc.reconcile exObjTerm okResponses).2 = .ok .awaitChange :=
  (claim_c6 exObjTerm okResponses rfl).2.2 rfl

/-- Claim C9: the readiness condition has type `Ready`, status `True` iff
the observed ready count is positive (else `False`), reason
`PodsAvailable` or `Scaling` accordingly, a message embedding the count;
absent Deployment status or absent ready-replica field counts as 0; and
the recomputed status upserts exactly this condition. -/
theorem claim_c9 (ready : Int) (st : RustOperatorStatus) (message : String) :
    (MainSrc.ready_condition ready).type_ = "Ready"
  ∧ ((MainSrc.ready_condition ready).status = "True" ↔ 0 < ready)
  ∧ ((MainSrc.ready_condition ready).status = "False" ↔ ¬ 0 < ready)
  ∧ (MainSrc.ready_condition ready).reason
      = some (if 0 < ready then "PodsAvailable" else "Scaling")
  ∧ (MainSrc.ready_condition ready).message = some ("ready_replicas=" ++ toString ready)
  ∧ MainSrc.readyCount { status := none } = 0
  ∧ MainSrc.readyCount { status := some { ready_replicas := none } } = 0
  ∧ (∀ dob : DeployReadback, dob.status = none → MainSrc.readyCount dob = 0)
  ∧ (MainSrc.computeNewStatus st message ready (MainSrc.ready_condition ready)).conditions
      = some (MainSrc.upsert_condition (st.conditions.getD [])
          (MainSrc.ready_condition ready)) := by
  refine ⟨rfl, ?_, ?_, rfl, rfl, rfl, rfl, ?_, ?_⟩
  · by_cases h : 0 < ready <;> simp [MainSrc.ready_condition, h]
  · by_cases h : 0 < ready <;> simp [MainSrc.ready_condition, h]
  · intro dob h
    simp [MainSrc.readyCount, h]
  · simp only [MainSrc.computeNewStatus]
    split_ifs <;> rfl

/-- Claim C10: in the active path, when the controller owner reference
cannot be computed (metadata without name or uid) the reconcile reaches the
owner-reference expectation and aborts abruptly rather than returning a
typed error; and whenever the metadata does permit an owner reference, no
abort is reachable at all. -/
theorem claim_c10 (obj : RustOperator) (resp : StoreResponses) :
    (obj.metadata.deletion_timestamp = none → resp.finPatch = .ok () →
      controller_owner_ref obj = none →
      (MainSrc.reconcile obj resp).2 = .abort "owner ref")
  ∧ ((controller_owner_ref obj).isSome = true →
      ∀ m, (MainSrc.reconcile obj resp).2 ≠ .abort m) := by
  constructor
  · intro h1 h2 h3
    simp [MainSrc.reconcile, h1, h2, h3]
  · intro hsome m
    obtain ⟨ow, how⟩ := Option.isSome_iff_exists.mp hsome
    obtain ⟨f, cm, dp, sv, ip, idel, st, dd, ds, dc⟩ := resp
    by_cases hdt : obj.metadata.deletion_timestamp.isSome = true
    · cases f <;> simp [MainSrc.reconcile, hdt]
    · have hdt' : obj.metadata.deletion_timestamp.isSome = false := by
        revert hdt
        cases obj.metadata.deletion_timestamp.isSome <;> simp
      cases f with
      | error e => simp [MainSrc.reconcile, hdt']
      | ok u =>
        cases cm with
        | error e => simp [MainSrc.reconcile, hdt', how]
        | ok u2 =>
          cases dp with
          | error e => simp [MainSrc.reconcile, hdt', how]
          | ok dob =>
            cases sv with
            | error e => simp [MainSrc.reconcile, hdt', how]
            | ok u3 =>
              simp only [MainSrc.reconcile, hdt', how, Bool.false_eq_true, if_false]
              exact tailPhases_not_abort _ _ _ _ _ _ _ _ _

/-- Claim C10 witness: a uid-less resource aborts at the owner-reference
expectation; a well-formed one never aborts. -/
theorem claim_c10_witness :
    (MainSrc.reconcile exObjNoUid okResponses).2 = .abort "owner ref"
  ∧ (∀ m, (MainSrc.reconcile exObjActive okResponses).2 ≠ .abort m) :=
  ⟨(claim_c10 exObjNoUid okResponses).1 rfl rfl rfl,
   (claim_c10 exObjActive okResponses).2 rfl⟩

/-- Claim C5: in the active path (all prior writes succeeding), an Ingress
apply is issued exactly when the ingress host trims non-empty; when
blank, an Ingress delete (named after the resource) is issued instead and
the outcome of that delete is entirely ignored — the reconcile run is
unchanged under any response to it. -/
theorem claim_c5 (obj : RustOperator) (resp : StoreResponses) (dob : DeployReadback)
    (h1 : obj.metadata.deletion_timestamp = none)
    (h2 : resp.finPatch = .ok ())
    (h3 : (controller_owner_ref obj).isSome = true)
    (h4 : resp.cmPatch = .ok ())
    (h5 : resp.deployPatch = .ok dob)
    (h6 : resp.svcPatch = .ok ()) :
    (((MainSrc.reconcile obj resp).1.any isApplyIngress = true)
      ↔ rustTrim obj.spec.ingress_host ≠ "")
  ∧ (rustTrim obj.spec.ingress_host = "" →
      Op.deleteIngress (nsOf obj) (name_any obj) ∈ (MainSrc.reconcile obj resp).1
    ∧ ∀ er, MainSrc.reconcile obj { resp with ingDelete := er }
        = MainSrc.reconcile obj resp) := by
  obtain ⟨ow, how⟩ := Option.isSome_iff_exists.mp h3
  have hred : MainSrc.reconcile obj resp
      = MainSrc.tailPhases (nsOf obj) (name_any obj) (name_any obj ++ "-service") obj resp dob ow
          [Op.patchMergeFinalizers (nsOf obj) (name_any obj) (MainSrc.finalizers_patch true),
           Op.applyConfigMap (nsOf obj) (name_any obj)
             (MainSrc.desired_configmap (name_any obj) (MainSrc.labels (name_any obj))
               obj.spec.html ow),
           Op.applyDeployment (nsOf obj) (name_any obj)
             (MainSrc.desired_deployment (name_any obj) (MainSrc.labels (name_any obj))
               obj.spec.replicas ow obj.spec),
           Op.applyService (nsOf obj) (name_any obj ++ "-service")
             (MainSrc.desired_service (name_any obj) (MainSrc.labels (name_any obj))
               obj.spec.service_type ow)] := by
    simp [MainSrc.reconcile, h1, h2, how, h4, h5, h6]
  constructor
  · rw [hred]
    exact tailPhases_any_applyIngress _ _ _ _ _ _ _ _ (by simp [isApplyIngress])
  · intro hblank
    constructor
    · rw [hred]
      exact tailPhases_deleteIngress_mem _ _ _ _ _ _ _ _ hblank
    · intro er
      obtain ⟨f, cmr, dpr, svr, ipr, idel, str, ddr, dsr, dcr⟩ := resp
      rfl

/-- Claim C5 witness: a blank ingress host issues the Ingress delete. -/
theorem claim_c5_witness :
    Op.deleteIngress (nsOf exObjActive) (name_any exObjActive)
      ∈ (MainSrc.reconcile exObjActive okResponses).1 :=
  ((claim_c5 exObjActive okResponses { status := some { ready_replicas := some 1 } }
      rfl rfl rfl rfl rfl rfl).2 rfl).1
